import Mathlib

/-!
Verification of the NIS2-Dash backend: a shallow embedding of the CSV
aggregation pipeline (`backend/internal/processor`, function
`FetchAndProcessCSV`), the export-status polling loop
(`backend/internal/snyk/client.go`, `PollExportStatus`) and the
`GET /api/data` HTTP handler (`backend/internal/server/handlers.go`,
`DataHandler`), together with proofs of the specified properties.

Go strings are modelled as Lean `String`; Go maps used as counters are
modelled as association lists in insertion order (the properties proved
are insensitive to Go's unspecified map iteration order); Go slices are
Lean lists; fallible Go functions returning `(T, error)` are modelled as
`Except String T`.
-/

deriving instance DecidableEq for Except

namespace NIS2Dash

/-! ## Data model (`backend/internal/snyk/models.go`) -/

/-- `ProjectInfo` holds risk data per project. -/
structure ProjectInfo where
  name : String
  criticalIssueCount : Nat
  highIssueCount : Nat
  deriving Repr, DecidableEq

/-- `DashboardData` is the aggregate returned as JSON to the frontend.
The two Go `map[string]int` counters are modelled as association lists. -/
structure DashboardData where
  issuesBySeverity : List (String × Nat)
  issuesByEnvironment : List (String × Nat)
  fixableCriticalIssues : Nat
  top5RiskiestProjects : List ProjectInfo
  deriving Repr, DecidableEq

/-! ## String helpers

`goSplit` models Go `strings.Split` on a one-character separator and
`goTrim` models `strings.TrimSpace`, both by structural recursion over the
character list so that concrete inputs evaluate in the kernel. -/

/-- Model of Go `strings.Split(s, sep)` for a single-character separator. -/
def goSplit (sep : Char) (s : String) : List String :=
  go s.data ""
where
  go : List Char → String → List String
  | [], acc => [acc]
  | c :: rest, acc => if c = sep then acc :: go rest "" else go rest (acc.push c)

/-- Model of Go `strings.TrimSpace`. -/
def goTrim (s : String) : String :=
  ⟨(((s.data.dropWhile Char.isWhitespace).reverse).dropWhile Char.isWhitespace).reverse⟩

/-- `splitAndClean` from `processor`: split a comma-separated field, trim
each part, and drop empty parts (`nil` for the empty input). -/
def splitAndClean (input : String) : List String :=
  if input = "" then []
  else ((goSplit ',' input).map goTrim).filter (fun s => s ≠ "")

/-! ## Counter maps

Go `map[string]int` counters, modelled as association lists in insertion
order.  `bump m k` is `m[k]++` (Go's `m[k]++` inserts `k ↦ 1` when `k` is
absent); `setKey` is plain assignment `m[k] = v`. -/

/-- Increment the counter at key `k`, inserting `k ↦ 1` if absent. -/
def bump (m : List (String × Nat)) (k : String) : List (String × Nat) :=
  match m with
  | [] => [(k, 1)]
  | (k', v) :: rest => if k' = k then (k', v + 1) :: rest else (k', v) :: bump rest k

/-- Assign `m[k] = v`, overwriting an existing entry (Go map assignment). -/
def setKey (m : List (String × Nat)) (k : String) (v : Nat) : List (String × Nat) :=
  match m with
  | [] => [(k, v)]
  | (k', v') :: rest => if k' = k then (k', v) :: rest else (k', v') :: setKey rest k v

/-- Sum of the counter values of a map. -/
def mapSum (m : List (String × Nat)) : Nat :=
  (m.map Prod.snd).sum

/-! ## Column resolution (`FetchAndProcessCSV`, header handling)

The Go code builds `colIndex[colName] = i` for each header cell in order
(later duplicates overwrite earlier ones), then requires
`ISSUE_SEVERITY`, `COMPUTED_FIXABILITY` and `PROJECT_NAME`;
`PROJECT_ENVIRONMENTS` is optional. -/

/-- The resolved column indices. `environmentsCol` is `none` when the
optional `PROJECT_ENVIRONMENTS` column is absent. -/
structure Cols where
  severityCol : Nat
  autofixableCol : Nat
  environmentsCol : Option Nat
  projectNameCol : Nat
  deriving Repr, DecidableEq

/-- Build the Go `colIndex` map from the header row. -/
def buildColIndex (header : List String) : List (String × Nat) :=
  header.enum.foldl (fun m iv => setKey m iv.2 iv.1) []

/-- The error text returned when a required column is missing. -/
def missingColumnsMsg : String :=
  "missing one or more required columns in CSV: ISSUE_SEVERITY, COMPUTED_FIXABILITY, PROJECT_NAME"

/-- Resolve the column indices from the header, failing when any of the
three required columns is absent (the `!ok1 || !ok2 || !ok4` check). -/
def resolveCols (header : List String) : Except String Cols :=
  let colIndex := buildColIndex header
  match List.lookup "ISSUE_SEVERITY" colIndex, List.lookup "COMPUTED_FIXABILITY" colIndex,
        List.lookup "PROJECT_NAME" colIndex with
  | some sevCol, some fixCol, some projCol =>
      .ok ⟨sevCol, fixCol, List.lookup "PROJECT_ENVIRONMENTS" colIndex, projCol⟩
  | _, _, _ => .error missingColumnsMsg

/-! ## Row folding (`FetchAndProcessCSV`, main loop) -/

/-- The mutable aggregation state of `FetchAndProcessCSV`. -/
structure AggState where
  issuesBySeverity : List (String × Nat)
  issuesByEnvironment : List (String × Nat)
  fixableCriticals : Nat
  projectIssues : List ProjectInfo
  deriving Repr, DecidableEq

/-- The initial (empty) aggregation state. -/
def initState : AggState := ⟨[], [], 0, []⟩

/-- Upsert the per-project record for `name`: create it with zero counts
when absent, then increment its critical counter when
`sev = "critical"` and its high counter when `sev = "high"`. -/
def upsertProject (ps : List ProjectInfo) (name sev : String) : List ProjectInfo :=
  match ps with
  | [] => [⟨name, if sev = "critical" then 1 else 0, if sev = "high" then 1 else 0⟩]
  | p :: rest =>
    if p.name = name then
      { p with
        criticalIssueCount :=
          if sev = "critical" then p.criticalIssueCount + 1 else p.criticalIssueCount,
        highIssueCount :=
          if sev = "high" then p.highIssueCount + 1 else p.highIssueCount } :: rest
    else p :: upsertProject rest name sev

/-- The environment field of a record: `record[environmentsCol]` when the
optional column is present and in range, the `"N/A"` default otherwise
(the `environments := "N/A"; if ok3 && len(record) > environmentsCol`
sequence). -/
def envField (cols : Cols) (record : List String) : String :=
  match cols.environmentsCol with
  | some i => if i < record.length then record.getD i "" else "N/A"
  | none => "N/A"

/-- One iteration of the row loop of `FetchAndProcessCSV`: a record whose
field count differs from that of the header is skipped — `csv.Reader` at its
default `FieldsPerRecord` returns `ErrFieldCount` together with the record
for any mismatch with the count of the header, so the loop guard
`err != nil || len(record) < len(header)` skips shorter *and* longer
records (the explicit `<` check is subsumed by the error check).  For a
record of exactly the width of the header the four counters are updated in the
order of the Go code. -/
def processRow (hlen : Nat) (cols : Cols) (st : AggState) (record : List String) : AggState :=
  if record.length ≠ hlen then st
  else
    let severity := record.getD cols.severityCol ""
    let autofixable := record.getD cols.autofixableCol ""
    let projectName := record.getD cols.projectNameCol ""
    let environments := envField cols record
    let st1 :=
      if severity ≠ "" then
        { st with issuesBySeverity := bump st.issuesBySeverity severity }
      else st
    let st2 :=
      if environments ≠ "" then
        { st1 with issuesByEnvironment := (splitAndClean environments).foldl bump st1.issuesByEnvironment }
      else
        { st1 with issuesByEnvironment := bump st1.issuesByEnvironment "undefined" }
    let st3 :=
      if severity = "critical" ∧ autofixable = "fixable" then
        { st2 with fixableCriticals := st2.fixableCriticals + 1 }
      else st2
    { st3 with projectIssues := upsertProject st3.projectIssues projectName severity }

/-! ## Finalization (`FetchAndProcessCSV`, sort and truncate) -/

/-- The `sort.Slice` comparison: descending by critical count, then
descending by high count. -/
def lessProj (a b : ProjectInfo) : Bool :=
  if a.criticalIssueCount ≠ b.criticalIssueCount then
    decide (a.criticalIssueCount > b.criticalIssueCount)
  else decide (a.highIssueCount > b.highIssueCount)

/-- The order the sorted slice satisfies: `a` may precede `b` exactly when
`lessProj b a` fails (the postcondition of Go's `sort.Slice`). -/
def projLe (a b : ProjectInfo) : Prop := !lessProj b a

instance : DecidableRel projLe :=
  fun a b => inferInstanceAs (Decidable ((!lessProj b a) = true))

/-- Sort the project records so that `lessProj b a` never holds for an
earlier `a` and later `b`.  `sort.Slice` guarantees only that the result
is some permutation sorted for the comparison, so a concrete sorted
permutation models it. -/
def sortProjects (ps : List ProjectInfo) : List ProjectInfo :=
  ps.insertionSort projLe

/-- Finalize: sort the collected project records and truncate to 5. -/
def finalizeProjects (ps : List ProjectInfo) : List ProjectInfo :=
  let sorted := sortProjects ps
  if sorted.length > 5 then sorted.take 5 else sorted

/-! ## The aggregator -/

/-- The pure core of `FetchAndProcessCSV`: given the parsed header and the
parsed data rows, resolve the columns, fold every row, and finalize. -/
def processCSV (header : List String) (rows : List (List String)) : Except String DashboardData :=
  match resolveCols header with
  | .error e => .error e
  | .ok cols =>
    let st := rows.foldl (processRow header.length cols) initState
    .ok { issuesBySeverity := st.issuesBySeverity
          issuesByEnvironment := st.issuesByEnvironment
          fixableCriticalIssues := st.fixableCriticals
          top5RiskiestProjects := finalizeProjects st.projectIssues }

/-- A data row is well-formed when it has exactly as many fields as the
header: `csv.Reader` flags any other field count with `ErrFieldCount` and
the loop guard skips the record, so these are precisely the rows the
aggregator folds. -/
def wellFormed (hlen : Nat) (record : List String) : Prop :=
  record.length = hlen

instance (hlen : Nat) (record : List String) : Decidable (wellFormed hlen record) :=
  inferInstanceAs (Decidable (record.length = hlen))

/-- The well-formed rows of a CSV body: those with exactly the field count
of the header, the only rows the loop processes. -/
def wellRows (hlen : Nat) (rows : List (List String)) : List (List String) :=
  rows.filter (fun r => r.length = hlen)

/-! ## Export-status polling (`client.go`, `PollExportStatus`)

The loop selects between a 5-minute deadline context and a 5-second
ticker.  Each tick performs a status request whose observable outcome per
attempt is modelled by `PollOutcome`: `transient` covers a failed request,
a non-200 status, a body-read failure and undecodable JSON (all logged and
retried); `status s resultsFetch` is a decoded response with status string
`s`, where `resultsFetch` is the outcome of the follow-up results request
made when `s = "FINISHED"` (`none` for a transient results failure, which
also just continues the loop; `some urls` for a decoded results list). -/

/-- The observable outcome of one polling attempt. -/
inductive PollOutcome where
  | transient
  | status (s : String) (resultsFetch : Option (List String))
  deriving Repr, DecidableEq

/-- How `PollExportStatus` can return. -/
inductive PollResult where
  | timedOut
  | exportFailed
  | noFileURL
  | finished (url : String)
  deriving Repr, DecidableEq

/-- One tick of the polling loop body: `some r` means the loop returns
`r`, `none` means it continues waiting. -/
def handleTick : PollOutcome → Option PollResult
  | .transient => none
  | .status s resultsFetch =>
    if s = "FINISHED" then
      match resultsFetch with
      | none => none
      | some [] => some .noFileURL
      | some (url :: _) => some (.finished url)
    else if s = "ERROR" then some .exportFailed
    else none

/-- The polling deadline (`5 * time.Minute`), in seconds. -/
def pollDeadlineSeconds : Nat := 300

/-- The polling cadence (`5 * time.Second`), in seconds. -/
def pollIntervalSeconds : Nat := 5

/-- The polling loop: `responses n` is the outcome of the `n`-th status
attempt, and `fuel` is the number of ticker firings remaining before the
deadline context fires; when the fuel is exhausted the loop returns the
timeout error. -/
def pollLoop (responses : Nat → PollOutcome) : Nat → Nat → PollResult
  | _, 0 => .timedOut
  | n, fuel + 1 =>
    match handleTick (responses n) with
    | some r => r
    | none => pollLoop responses (n + 1) fuel

/-- `PollExportStatus`, as a function of the per-attempt outcomes: at most
`deadline / interval` ticks fire before the deadline context ends the
select loop. -/
def pollExportStatus (responses : Nat → PollOutcome) : PollResult :=
  pollLoop responses 0 (pollDeadlineSeconds / pollIntervalSeconds)

/-! ## The `/api/data` handler (`handlers.go`, `DataHandler`)

The handler is modelled as a function of the request method, the raw
`orgs` query parameter, and the outcomes of the four pipeline stages
(org listing, export initiation, polling, CSV processing), each an
`Except` mirroring the Go `(T, error)` return. -/

/-- An HTTP response: `error` is `http.Error` (plain-text status message),
`json` is `respondWithJSON` (the payload kept as a value, standing for its
JSON serialization). -/
inductive HandlerResponse where
  | error (status : Nat) (msg : String)
  | json (status : Nat) (payload : DashboardData)
  deriving Repr, DecidableEq

/-- `DataHandler`: method check, org resolution when the `orgs` query
parameter yields no IDs, then initiate → poll → process, each failure
mapped to a 500 with a fixed message (the underlying error is only
logged). `handlers.go` has its own copy of `splitAndClean`, identical to
the processor's. -/
def dataHandler (method : String) (orgsParam : String)
    (getOrgsInGroup : Except String (List String))
    (initiateExport : List String → Except String String)
    (pollExport : String → Except String String)
    (fetchAndProcess : String → Except String DashboardData) : HandlerResponse :=
  if method ≠ "GET" then .error 405 "Method Not Allowed"
  else
    let orgsQ := splitAndClean orgsParam
    match (if orgsQ.isEmpty then getOrgsInGroup else .ok orgsQ) with
    | .error _ => .error 500 "Failed to fetch Snyk organizations"
    | .ok orgs =>
      match initiateExport orgs with
      | .error _ => .error 500 "Failed to initiate Snyk export"
      | .ok exportID =>
        match pollExport exportID with
        | .error _ => .error 500 "Failed to complete Snyk export"
        | .ok fileURL =>
          match fetchAndProcess fileURL with
          | .error _ => .error 500 "Failed to process exported Snyk data"
          | .ok data => .json 200 data

/-! ## Per-field behaviour of `processRow` -/

theorem processRow_skip (hlen : Nat) (cols : Cols) (st : AggState) (record : List String)
    (h : record.length ≠ hlen) : processRow hlen cols st record = st := by
  simp [processRow, h]

theorem processRow_short (hlen : Nat) (cols : Cols) (st : AggState) (record : List String)
    (h : record.length < hlen) : processRow hlen cols st record = st :=
  processRow_skip hlen cols st record (Nat.ne_of_lt h)

theorem processRow_fixableCriticals (hlen : Nat) (cols : Cols) (st : AggState)
    (record : List String) :
    (processRow hlen cols st record).fixableCriticals =
      st.fixableCriticals +
        (if record.length = hlen ∧ record.getD cols.severityCol "" = "critical" ∧
            record.getD cols.autofixableCol "" = "fixable" then 1 else 0) := by
  by_cases h : record.length = hlen
  · simp only [processRow, if_neg (not_not_intro h)]
    split_ifs with h1 h2 h3 <;> simp_all
  · simp [processRow, h]

theorem processRow_issuesBySeverity (hlen : Nat) (cols : Cols) (st : AggState)
    (record : List String) :
    (processRow hlen cols st record).issuesBySeverity =
      if record.length = hlen ∧ record.getD cols.severityCol "" ≠ "" then
        bump st.issuesBySeverity (record.getD cols.severityCol "")
      else st.issuesBySeverity := by
  by_cases h : record.length = hlen
  · simp only [processRow, if_neg (not_not_intro h)]
    split_ifs with h1 h2 h3 <;> simp_all
  · simp [processRow, h]

theorem processRow_issuesByEnvironment (hlen : Nat) (cols : Cols) (st : AggState)
    (record : List String) :
    (processRow hlen cols st record).issuesByEnvironment =
      if record.length = hlen then
        (if envField cols record ≠ "" then
          (splitAndClean (envField cols record)).foldl bump st.issuesByEnvironment
        else bump st.issuesByEnvironment "undefined")
      else st.issuesByEnvironment := by
  by_cases h : record.length = hlen
  · simp only [processRow, if_neg (not_not_intro h)]
    split_ifs with h1 h2 h3 <;> simp_all
  · simp [processRow, h]

theorem processRow_projectIssues (hlen : Nat) (cols : Cols) (st : AggState)
    (record : List String) :
    (processRow hlen cols st record).projectIssues =
      if record.length = hlen then
        upsertProject st.projectIssues (record.getD cols.projectNameCol "")
          (record.getD cols.severityCol "")
      else st.projectIssues := by
  by_cases h : record.length = hlen
  · simp only [processRow, if_neg (not_not_intro h)]
    split_ifs with h1 h2 h3 <;> simp_all
  · simp [processRow, h]

/-! ## Folding the rows -/

theorem wellRows_cons (hlen : Nat) (r : List String) (rows : List (List String)) :
    wellRows hlen (r :: rows) =
      if r.length = hlen then r :: wellRows hlen rows else wellRows hlen rows := by
  simp only [wellRows, List.filter_cons]
  split_ifs with h <;> simp_all

theorem foldl_fixableCriticals (hlen : Nat) (cols : Cols) (rows : List (List String)) :
    ∀ st : AggState,
      (rows.foldl (processRow hlen cols) st).fixableCriticals =
        st.fixableCriticals + ((wellRows hlen rows).filter
          (fun r => decide (r.getD cols.severityCol "" = "critical") &&
                    decide (r.getD cols.autofixableCol "" = "fixable"))).length := by
  induction rows with
  | nil => intro st; simp [wellRows]
  | cons r rows ih =>
    intro st
    rw [List.foldl_cons, ih, processRow_fixableCriticals, wellRows_cons]
    by_cases hw : r.length = hlen
    · by_cases hA : r.getD cols.severityCol "" = "critical"
      · by_cases hB : r.getD cols.autofixableCol "" = "fixable"
        · rw [if_pos ⟨hw, hA, hB⟩, if_pos hw,
            List.filter_cons_of_pos
              (by simp only [Bool.and_eq_true, decide_eq_true_eq]; exact ⟨hA, hB⟩),
            List.length_cons]
          omega
        · rw [if_neg (fun h => hB h.2.2), if_pos hw,
            List.filter_cons_of_neg
              (by simp only [Bool.and_eq_true, decide_eq_true_eq, not_and]; exact fun _ => hB)]
          omega
      · rw [if_neg (fun h => hA h.2.1), if_pos hw,
          List.filter_cons_of_neg
            (by simp only [Bool.and_eq_true, decide_eq_true_eq, not_and]; exact fun h => absurd h hA)]
        omega
    · rw [if_neg (fun h => hw h.1), if_neg hw]
      omega

theorem mapSum_bump (m : List (String × Nat)) (k : String) :
    mapSum (bump m k) = mapSum m + 1 := by
  induction m with
  | nil => simp [bump, mapSum]
  | cons kv rest ih =>
    obtain ⟨k', v⟩ := kv
    by_cases h : k' = k <;> simp [bump, h, mapSum] at * <;> omega

theorem foldl_severitySum (hlen : Nat) (cols : Cols) (rows : List (List String)) :
    ∀ st : AggState,
      mapSum (rows.foldl (processRow hlen cols) st).issuesBySeverity =
        mapSum st.issuesBySeverity + ((wellRows hlen rows).filter
          (fun r => decide (r.getD cols.severityCol "" ≠ ""))).length := by
  induction rows with
  | nil => intro st; simp [wellRows]
  | cons r rows ih =>
    intro st
    rw [List.foldl_cons, ih, wellRows_cons, processRow_issuesBySeverity]
    by_cases hw : r.length = hlen
    · by_cases hs : r.getD cols.severityCol "" ≠ ""
      · rw [if_pos ⟨hw, hs⟩, if_pos hw,
          List.filter_cons_of_pos (by simp only [decide_eq_true_eq]; exact hs),
          List.length_cons, mapSum_bump]
        omega
      · rw [if_neg (fun h => hs h.2), if_pos hw,
          List.filter_cons_of_neg (by simp only [decide_eq_true_eq]; exact hs)]
    · rw [if_neg (fun h => hw h.1), if_neg hw]

/-! ## Claim theorems: the aggregator -/

/-- C2: for every CSV processed by the aggregator, the returned
`fixableCriticalIssues` equals the number of well-formed data rows whose
severity field is exactly `"critical"` and whose fixability field is
exactly `"fixable"`. -/
theorem fixableCriticalIssues_correct (header : List String) (rows : List (List String))
    (cols : Cols) (hc : resolveCols header = .ok cols) :
    ∃ d, processCSV header rows = .ok d ∧
      d.fixableCriticalIssues = ((wellRows header.length rows).filter
        (fun r => decide (r.getD cols.severityCol "" = "critical") &&
                  decide (r.getD cols.autofixableCol "" = "fixable"))).length := by
  refine ⟨_, by rw [processCSV, hc], ?_⟩
  rw [foldl_fixableCriticals]
  simp [initState]

/-- C3: the sum of the values of `issuesBySeverity` equals the number of
well-formed data rows with a non-empty severity field; rows with empty
severity contribute to no severity bucket. -/
theorem severitySum_correct (header : List String) (rows : List (List String))
    (cols : Cols) (hc : resolveCols header = .ok cols) :
    ∃ d, processCSV header rows = .ok d ∧
      mapSum d.issuesBySeverity = ((wellRows header.length rows).filter
        (fun r => decide (r.getD cols.severityCol "" ≠ ""))).length := by
  refine ⟨_, by rw [processCSV, hc], ?_⟩
  rw [foldl_severitySum]
  simp [initState, mapSum]

/-- C4: a data row shorter than the header is skipped entirely: processing
a CSV containing such a row gives exactly the same result, in every
component, as processing the CSV with that row removed, and never fails
because of it. -/
theorem shortRow_skipped (header : List String) (rows1 rows2 : List (List String))
    (r : List String) (h : r.length < header.length) :
    processCSV header (rows1 ++ r :: rows2) = processCSV header (rows1 ++ rows2) := by
  unfold processCSV
  cases hr : resolveCols header with
  | error e => rfl
  | ok cols =>
    simp only [List.foldl_append, List.foldl_cons,
      processRow_short header.length cols _ r h]

/-! ## Column-lookup lemmas -/

theorem lookup_setKey (x k : String) (v : Nat) (m : List (String × Nat)) :
    List.lookup x (setKey m k v) = if x = k then some v else List.lookup x m := by
  induction m with
  | nil =>
    by_cases h : x = k
    · simp [setKey, List.lookup, h]
    · simp [setKey, List.lookup, h, beq_eq_false_iff_ne.mpr h]
  | cons kv rest ih =>
    obtain ⟨k', v'⟩ := kv
    by_cases h1 : k' = k
    · subst h1
      by_cases h2 : x = k'
      · simp [setKey, List.lookup, h2]
      · simp [setKey, List.lookup, h2, beq_eq_false_iff_ne.mpr h2]
    · by_cases h2 : x = k'
      · subst h2
        simp [setKey, List.lookup, h1]
      · simp [setKey, List.lookup, h1, h2, beq_eq_false_iff_ne.mpr h2, ih]

theorem lookup_foldl_setKey (x : String) (l : List (Nat × String)) :
    ∀ m : List (String × Nat), x ∉ l.map Prod.snd →
      List.lookup x (l.foldl (fun m iv => setKey m iv.2 iv.1) m) = List.lookup x m := by
  induction l with
  | nil => intro m _; rfl
  | cons iv l ih =>
    intro m h
    simp only [List.map_cons, List.mem_cons, not_or] at h
    rw [List.foldl_cons, ih _ h.2, lookup_setKey, if_neg h.1]

theorem lookup_buildColIndex_of_not_mem (header : List String) (x : String)
    (h : x ∉ header) : List.lookup x (buildColIndex header) = none := by
  unfold buildColIndex
  rw [lookup_foldl_setKey x _ _ (by simpa [List.enum_map_snd] using h)]
  rfl

/-- C6: a header missing a required column (the severity column
`ISSUE_SEVERITY` or the project-name column `PROJECT_NAME`) makes the
aggregator fail with the schema error, uniformly in the data rows: no row
is folded and no partial aggregate is returned. -/
theorem resolveCols_error_of_missing (header : List String)
    (h : "ISSUE_SEVERITY" ∉ header ∨ "COMPUTED_FIXABILITY" ∉ header ∨
         "PROJECT_NAME" ∉ header) :
    resolveCols header = .error missingColumnsMsg := by
  have h1 : List.lookup "ISSUE_SEVERITY" (buildColIndex header) = none ∨
      List.lookup "COMPUTED_FIXABILITY" (buildColIndex header) = none ∨
      List.lookup "PROJECT_NAME" (buildColIndex header) = none := by
    rcases h with h | h | h
    · exact Or.inl (lookup_buildColIndex_of_not_mem header _ h)
    · exact Or.inr (Or.inl (lookup_buildColIndex_of_not_mem header _ h))
    · exact Or.inr (Or.inr (lookup_buildColIndex_of_not_mem header _ h))
  simp only [resolveCols]
  cases hs : List.lookup "ISSUE_SEVERITY" (buildColIndex header) <;>
    cases hf : List.lookup "COMPUTED_FIXABILITY" (buildColIndex header) <;>
      cases hp : List.lookup "PROJECT_NAME" (buildColIndex header) <;>
        simp_all

theorem missingRequiredColumn_fails (header : List String)
    (h : "ISSUE_SEVERITY" ∉ header ∨ "PROJECT_NAME" ∉ header)
    (rows : List (List String)) :
    processCSV header rows = .error missingColumnsMsg := by
  rcases h with h | h
  · rw [processCSV, resolveCols_error_of_missing header (Or.inl h)]
  · rw [processCSV, resolveCols_error_of_missing header (Or.inr (Or.inr h))]

/-! ## The sentinel environment bucket -/

theorem splitAndClean_NA : splitAndClean "N/A" = ["N/A"] := by decide

theorem processRow_env_none (hlen : Nat) (cols : Cols) (st : AggState)
    (record : List String) (h : cols.environmentsCol = none) :
    (processRow hlen cols st record).issuesByEnvironment =
      if record.length = hlen then bump st.issuesByEnvironment "N/A"
      else st.issuesByEnvironment := by
  rw [processRow_issuesByEnvironment]
  by_cases hw : record.length = hlen <;>
    simp [hw, envField, h, splitAndClean_NA]

/-- The canonical shape of `issuesByEnvironment` when every well-formed
row falls into the `"N/A"` bucket: empty for zero rows, the single entry
`("N/A", k)` for `k` rows. -/
def toNA : Nat → List (String × Nat)
  | 0 => []
  | k + 1 => [("N/A", k + 1)]

theorem bump_toNA (k : Nat) : bump (toNA k) "N/A" = toNA (k + 1) := by
  cases k <;> simp [toNA, bump]

theorem foldl_env_NA (hlen : Nat) (cols : Cols) (h : cols.environmentsCol = none)
    (rows : List (List String)) :
    ∀ (k : Nat) (st : AggState), st.issuesByEnvironment = toNA k →
      (rows.foldl (processRow hlen cols) st).issuesByEnvironment =
        toNA (k + (wellRows hlen rows).length) := by
  induction rows with
  | nil => intro k st hst; simpa [wellRows] using hst
  | cons r rows ih =>
    intro k st hst
    rw [List.foldl_cons, wellRows_cons]
    by_cases hw : r.length = hlen
    · rw [ih (k + 1) _ (by rw [processRow_env_none _ _ _ _ h, if_pos hw, hst, bump_toNA]),
        if_pos hw, List.length_cons]
      congr 1
      omega
    · rw [ih k _ (by rw [processRow_env_none _ _ _ _ h, if_neg hw, hst]), if_neg hw]

theorem resolveCols_envCol_none (header : List String) (cols : Cols)
    (h : resolveCols header = .ok cols) (hm : "PROJECT_ENVIRONMENTS" ∉ header) :
    cols.environmentsCol = none := by
  have hn : List.lookup "PROJECT_ENVIRONMENTS" (buildColIndex header) = none :=
    lookup_buildColIndex_of_not_mem header _ hm
  simp only [resolveCols] at h
  cases hs : List.lookup "ISSUE_SEVERITY" (buildColIndex header) <;>
    cases hf : List.lookup "COMPUTED_FIXABILITY" (buildColIndex header) <;>
      cases hp : List.lookup "PROJECT_NAME" (buildColIndex header) <;>
        simp_all
  rw [← h]

/-! ## Claim theorems: optional columns (C5) -/

/-- C5 counterexample: a header that lacks only the fixability column
(`COMPUTED_FIXABILITY`) makes the aggregator fail with the schema error;
it does not succeed with fixability-based counting skipped. -/
theorem missingFixability_error_example :
    processCSV ["ISSUE_SEVERITY", "PROJECT_NAME", "PROJECT_ENVIRONMENTS"]
      [["critical", "p", "env"]] = .error missingColumnsMsg := by decide

/-- C5 (amended): the environment column is optional — when
`PROJECT_ENVIRONMENTS` is absent (and column resolution succeeds) every
well-formed row is counted in the single sentinel `"N/A"` bucket, so with
at least one well-formed row `issuesByEnvironment` has exactly the one key
`"N/A"`; the fixability column, however, is required — when
`COMPUTED_FIXABILITY` is absent the aggregator fails with the schema error
instead of proceeding with `fixableCriticalIssues = 0`. -/
theorem optionalColumns_behaviour (header : List String) (rows : List (List String)) :
    (∀ cols, "PROJECT_ENVIRONMENTS" ∉ header → resolveCols header = .ok cols →
      ∃ d, processCSV header rows = .ok d ∧
        d.issuesByEnvironment = toNA (wellRows header.length rows).length ∧
        (wellRows header.length rows ≠ [] →
          d.issuesByEnvironment.map Prod.fst = ["N/A"])) ∧
    ("COMPUTED_FIXABILITY" ∉ header →
      processCSV header rows = .error missingColumnsMsg) := by
  constructor
  · intro cols hm hok
    have henv := resolveCols_envCol_none header cols hok hm
    refine ⟨_, by rw [processCSV, hok], ?_, ?_⟩
    · rw [foldl_env_NA header.length cols henv rows 0 initState rfl]
      simp
    · intro hne
      rw [foldl_env_NA header.length cols henv rows 0 initState rfl]
      rcases hk : (wellRows header.length rows).length with _ | k
      · exact absurd (List.length_eq_zero.mp hk) hne
      · simp [toNA]
  · intro hm
    rw [processCSV, resolveCols_error_of_missing header (Or.inr (Or.inl hm))]

/-- Witness for the amended C5 at concrete inputs: a header without the
environment column aggregates one row into the single `"N/A"` bucket, and
a header without the fixability column is rejected. -/
theorem optionalColumns_behaviour_witness :
    (∃ d, processCSV ["ISSUE_SEVERITY", "COMPUTED_FIXABILITY", "PROJECT_NAME"]
        [["critical", "fixable", "p"]] = .ok d ∧
        d.issuesByEnvironment =
          toNA (wellRows (["ISSUE_SEVERITY", "COMPUTED_FIXABILITY", "PROJECT_NAME"] :
            List String).length [["critical", "fixable", "p"]]).length ∧
        (wellRows (["ISSUE_SEVERITY", "COMPUTED_FIXABILITY", "PROJECT_NAME"] :
            List String).length [["critical", "fixable", "p"]] ≠ [] →
          d.issuesByEnvironment.map Prod.fst = ["N/A"])) ∧
    processCSV ["ISSUE_SEVERITY", "PROJECT_NAME", "PROJECT_ENVIRONMENTS"] [] =
      .error missingColumnsMsg :=
  ⟨(optionalColumns_behaviour _ _).1 ⟨0, 1, none, 2⟩ (by decide) (by decide),
   (optionalColumns_behaviour _ _).2 (by decide)⟩

/-! ## Names of the per-project records -/

theorem names_upsert (ps : List ProjectInfo) (name sev : String) :
    (upsertProject ps name sev).map (fun p => p.name) =
      if name ∈ ps.map (fun p => p.name) then ps.map (fun p => p.name)
      else ps.map (fun p => p.name) ++ [name] := by
  induction ps with
  | nil => simp [upsertProject]
  | cons p rest ih =>
    by_cases h : p.name = name
    · simp [upsertProject, h]
    · by_cases hm : name ∈ rest.map (fun p => p.name) <;>
        simp [upsertProject, h, Ne.symm h, hm, ih]

theorem names_upsert_toFinset (ps : List ProjectInfo) (name sev : String) :
    ((upsertProject ps name sev).map (fun p => p.name)).toFinset =
      insert name ((ps.map (fun p => p.name)).toFinset) := by
  rw [names_upsert]
  by_cases h : name ∈ ps.map (fun p => p.name)
  · rw [if_pos h]
    exact (Finset.insert_eq_self.mpr (List.mem_toFinset.mpr h)).symm
  · rw [if_neg h]
    ext a
    simp [or_comm]

theorem names_upsert_nodup (ps : List ProjectInfo) (name sev : String)
    (h : (ps.map (fun p => p.name)).Nodup) :
    ((upsertProject ps name sev).map (fun p => p.name)).Nodup := by
  rw [names_upsert]
  by_cases hm : name ∈ ps.map (fun p => p.name)
  · rwa [if_pos hm]
  · rw [if_neg hm]
    simp only [List.nodup_append, List.nodup_singleton, true_and]
    exact ⟨h, by simpa using hm⟩

/-! ## Claim theorems: environment tokens (C9) and project upserts (C10) -/

/-- C9: a well-formed row whose environment field is non-empty but yields
no tokens after comma-splitting and trimming increments no environment
bucket at all — neither a named one nor `"undefined"` — so the sum of
`issuesByEnvironment` can be strictly less than the number of well-formed
rows, as the concrete one-row CSV with environment field `",,,"` shows. -/
theorem emptyTokenEnvironment_noBucket (hlen : Nat) (cols : Cols) (st : AggState)
    (record : List String) (_hw : hlen ≤ record.length)
    (hne : envField cols record ≠ "") (hsp : splitAndClean (envField cols record) = []) :
    (processRow hlen cols st record).issuesByEnvironment = st.issuesByEnvironment ∧
    ∃ d, processCSV
        ["ISSUE_SEVERITY", "PROJECT_NAME", "PROJECT_ENVIRONMENTS", "COMPUTED_FIXABILITY"]
        [["critical", "p", ",,,", "fixable"]] = .ok d ∧
      mapSum d.issuesByEnvironment <
        (wellRows 4 [["critical", "p", ",,,", "fixable"]]).length := by
  constructor
  · by_cases he : record.length = hlen
    · rw [processRow_issuesByEnvironment, if_pos he, if_pos hne, hsp]
      rfl
    · rw [processRow_issuesByEnvironment, if_neg he]
  · exact ⟨⟨[("critical", 1)], [], 1, [⟨"p", 1, 0⟩]⟩, by decide, by decide⟩

/-- Witness for C9 at a concrete input: the row with environment field
`",,,"` leaves the environment map untouched. -/
theorem emptyTokenEnvironment_noBucket_witness :
    ((processRow 4 ⟨0, 3, some 2, 1⟩ initState
        ["critical", "p", ",,,", "fixable"]).issuesByEnvironment =
      initState.issuesByEnvironment ∧
    ∃ d, processCSV
        ["ISSUE_SEVERITY", "PROJECT_NAME", "PROJECT_ENVIRONMENTS", "COMPUTED_FIXABILITY"]
        [["critical", "p", ",,,", "fixable"]] = .ok d ∧
      mapSum d.issuesByEnvironment <
        (wellRows 4 [["critical", "p", ",,,", "fixable"]]).length) :=
  emptyTokenEnvironment_noBucket 4 ⟨0, 3, some 2, 1⟩ initState
    ["critical", "p", ",,,", "fixable"] (by decide) (by decide) (by decide)

/-- C10: every well-formed row upserts a per-project record keyed by its
project-name field, the empty string included — the set of project names
after a row is always `insert projectName` of the set before — and an
empty-named project accumulates critical/high counts and can appear in
`top5RiskiestProjects`, as the concrete two-row CSV shows. -/
theorem emptyProjectName_upserted (hlen : Nat) (cols : Cols) (st : AggState)
    (record : List String) (hw : record.length = hlen) :
    ((processRow hlen cols st record).projectIssues.map (fun p => p.name)).toFinset =
      insert (record.getD cols.projectNameCol "")
        ((st.projectIssues.map (fun p => p.name)).toFinset) ∧
    ∃ d, processCSV
        ["ISSUE_SEVERITY", "PROJECT_NAME", "PROJECT_ENVIRONMENTS", "COMPUTED_FIXABILITY"]
        [["critical", "", "e", ""], ["high", "", "e", ""]] = .ok d ∧
      d.top5RiskiestProjects = [⟨"", 1, 1⟩] := by
  constructor
  · rw [processRow_projectIssues, if_pos hw, names_upsert_toFinset]
  · exact ⟨⟨[("critical", 1), ("high", 1)], [("e", 2)], 0, [⟨"", 1, 1⟩]⟩, by decide, by decide⟩

/-- Witness for C10 at a concrete input: a well-formed row with an empty
project-name field inserts the empty name into the project set. -/
theorem emptyProjectName_upserted_witness :
    (((processRow 4 ⟨0, 3, some 2, 1⟩ initState
          ["critical", "", "e", ""]).projectIssues.map (fun p => p.name)).toFinset =
      insert ((["critical", "", "e", ""] : List String).getD 1 "")
        ((initState.projectIssues.map (fun p => p.name)).toFinset) ∧
    ∃ d, processCSV
        ["ISSUE_SEVERITY", "PROJECT_NAME", "PROJECT_ENVIRONMENTS", "COMPUTED_FIXABILITY"]
        [["critical", "", "e", ""], ["high", "", "e", ""]] = .ok d ∧
      d.top5RiskiestProjects = [⟨"", 1, 1⟩]) :=
  emptyProjectName_upserted 4 ⟨0, 3, some 2, 1⟩ initState
    ["critical", "", "e", ""] (by decide)

/-! ## Claim theorems: polling (C7) -/

/-- C7: when no polling attempt ever reports a terminal status — each
attempt is either a transient request/read/decode failure or non-200
response, or a decoded non-terminal status such as `"PENDING"` — the loop
returns the timeout error once the 5-minute deadline has elapsed and
cannot hang (only `deadline / interval` ticks fire); in particular
transient failures never abort polling early: only a `"FINISHED"`
resolution, an `"ERROR"` status or the deadline ends it. -/
theorem pollExportStatus_timeout (responses : Nat → PollOutcome)
    (h : ∀ n, responses n = .transient ∨
      ∃ s rf, responses n = .status s rf ∧ s ≠ "FINISHED" ∧ s ≠ "ERROR") :
    pollExportStatus responses = .timedOut := by
  have key : ∀ (fuel n : Nat), pollLoop responses n fuel = .timedOut := by
    intro fuel
    induction fuel with
    | zero => intro n; rfl
    | succ fuel ih =>
      intro n
      rw [pollLoop]
      rcases h n with hn | ⟨s, rf, hn, hs1, hs2⟩
      · rw [hn]
        exact ih (n + 1)
      · rw [hn]
        simp only [handleTick, if_neg hs1, if_neg hs2]
        exact ih (n + 1)
  exact key _ 0

/-- Witness for C7: a status endpoint that always answers `"PENDING"`
times out. -/
theorem pollExportStatus_timeout_witness :
    pollExportStatus (fun _ => .status "PENDING" none) = .timedOut :=
  pollExportStatus_timeout (fun _ => .status "PENDING" none)
    (fun _ => Or.inr ⟨"PENDING", none, rfl, by decide, by decide⟩)

/-! ## Claim theorems: the HTTP handler (C8) -/

/-- The four fixed 500 messages `DataHandler` can write; none embeds the
underlying error value. -/
def pipelineErrorMsgs : List String :=
  ["Failed to fetch Snyk organizations", "Failed to initiate Snyk export",
   "Failed to complete Snyk export", "Failed to process exported Snyk data"]

/-- C8: the handler answers 405 exactly for non-GET methods; every 500
response carries one of the four fixed generic messages (so the body never
depends on the underlying error text); and it answers 200 with the
serialized `DashboardData` exactly when every pipeline stage succeeds.
Every response is one of those three forms. -/
theorem dataHandler_responses (method orgsParam : String)
    (getOrgs : Except String (List String))
    (initiate : List String → Except String String)
    (poll : String → Except String String)
    (process : String → Except String DashboardData) :
    (dataHandler method orgsParam getOrgs initiate poll process =
        .error 405 "Method Not Allowed" ↔ method ≠ "GET") ∧
    (∀ msg, dataHandler method orgsParam getOrgs initiate poll process =
        .error 500 msg → msg ∈ pipelineErrorMsgs) ∧
    (∀ d, dataHandler method orgsParam getOrgs initiate poll process =
        .json 200 d ↔
      (method = "GET" ∧ ∃ orgs exportID fileURL,
        (if (splitAndClean orgsParam).isEmpty then getOrgs
         else .ok (splitAndClean orgsParam)) = .ok orgs ∧
        initiate orgs = .ok exportID ∧ poll exportID = .ok fileURL ∧
        process fileURL = .ok d)) ∧
    ((∃ msg, dataHandler method orgsParam getOrgs initiate poll process =
        .error 405 msg ∨
      (dataHandler method orgsParam getOrgs initiate poll process =
        .error 500 msg ∧ msg ∈ pipelineErrorMsgs)) ∨
     (∃ d, dataHandler method orgsParam getOrgs initiate poll process =
        .json 200 d)) := by
  by_cases hm : method = "GET"
  · simp only [dataHandler, hm, ne_eq, not_true_eq_false, if_false]
    cases ho : (if (splitAndClean orgsParam).isEmpty then getOrgs
        else Except.ok (splitAndClean orgsParam)) with
    | error e => simp [pipelineErrorMsgs, ho]
    | ok orgs =>
      cases hi : initiate orgs with
      | error e => simp [pipelineErrorMsgs, ho, hi]
      | ok exportID =>
        cases hp : poll exportID with
        | error e => simp [pipelineErrorMsgs, ho, hi, hp]
        | ok fileURL =>
          cases hd : process fileURL with
          | error e => simp [pipelineErrorMsgs, ho, hi, hp, hd]
          | ok d => simp [pipelineErrorMsgs, ho, hi, hp, hd]
  · simp [dataHandler, hm]

/-- Witness for C8 at concrete inputs: a POST is rejected with 405 and a
GET whose polling stage fails yields the fixed generic 500 message. -/
theorem dataHandler_responses_witness :
    dataHandler "POST" "" (.ok ["o"]) (fun _ => .ok "id") (fun _ => .ok "url")
        (fun _ => .ok ⟨[], [], 0, []⟩) = .error 405 "Method Not Allowed" ∧
    ("Failed to complete Snyk export" ∈ pipelineErrorMsgs) :=
  ⟨(dataHandler_responses "POST" "" (.ok ["o"]) (fun _ => .ok "id")
      (fun _ => .ok "url") (fun _ => .ok ⟨[], [], 0, []⟩)).1.mpr (by decide),
   (dataHandler_responses "GET" "o" (.ok ["o"]) (fun _ => .ok "id")
      (fun _ => .error "boom") (fun _ => .ok ⟨[], [], 0, []⟩)).2.1
      "Failed to complete Snyk export" (by decide)⟩

/-! ## The sorted top-5 list (C1) -/

theorem lessProj_iff (a b : ProjectInfo) :
    lessProj a b = true ↔
      a.criticalIssueCount > b.criticalIssueCount ∨
      (a.criticalIssueCount = b.criticalIssueCount ∧
        a.highIssueCount > b.highIssueCount) := by
  unfold lessProj
  by_cases h : a.criticalIssueCount ≠ b.criticalIssueCount
  · simp [h]
  · simp [h]
    omega

theorem projLe_iff (a b : ProjectInfo) :
    projLe a b ↔
      a.criticalIssueCount > b.criticalIssueCount ∨
      (a.criticalIssueCount = b.criticalIssueCount ∧
        a.highIssueCount ≥ b.highIssueCount) := by
  simp only [projLe, Bool.not_eq_true']
  rw [← Bool.not_eq_true, lessProj_iff]
  omega

instance : IsTotal ProjectInfo projLe :=
  ⟨fun a b => by rw [projLe_iff, projLe_iff]; omega⟩

instance : IsTrans ProjectInfo projLe :=
  ⟨fun a b c hab hbc => by
    rw [projLe_iff] at hab hbc ⊢
    omega⟩

theorem sortProjects_sorted (ps : List ProjectInfo) :
    List.Pairwise projLe (sortProjects ps) :=
  List.sorted_insertionSort projLe ps

theorem sortProjects_length (ps : List ProjectInfo) :
    (sortProjects ps).length = ps.length :=
  List.length_insertionSort projLe ps

theorem finalizeProjects_length (ps : List ProjectInfo) :
    (finalizeProjects ps).length = min 5 ps.length := by
  unfold finalizeProjects
  by_cases h : (sortProjects ps).length > 5
  · rw [if_pos h, List.length_take, sortProjects_length]
  · rw [if_neg h, sortProjects_length]
    rw [sortProjects_length] at h
    omega

theorem finalizeProjects_chain (ps : List ProjectInfo) :
    List.Chain' (fun a b => a.criticalIssueCount > b.criticalIssueCount ∨
      (a.criticalIssueCount = b.criticalIssueCount ∧
        a.highIssueCount ≥ b.highIssueCount)) (finalizeProjects ps) := by
  have hp : List.Pairwise (fun a b => a.criticalIssueCount > b.criticalIssueCount ∨
      (a.criticalIssueCount = b.criticalIssueCount ∧
        a.highIssueCount ≥ b.highIssueCount)) (sortProjects ps) :=
    (sortProjects_sorted ps).imp (fun hab => (projLe_iff _ _).mp hab)
  unfold finalizeProjects
  by_cases h : (sortProjects ps).length > 5
  · rw [if_pos h]
    exact (hp.sublist (List.take_sublist _ _)).chain'
  · rw [if_neg h]
    exact hp.chain'

theorem foldl_projectNames (hlen : Nat) (cols : Cols) (rows : List (List String)) :
    ∀ st : AggState,
      ((((rows.foldl (processRow hlen cols) st).projectIssues.map
          (fun p => p.name)).toFinset =
        (st.projectIssues.map (fun p => p.name)).toFinset ∪
          ((wellRows hlen rows).map
            (fun r => r.getD cols.projectNameCol "")).toFinset) ∧
      ((st.projectIssues.map (fun p => p.name)).Nodup →
        (((rows.foldl (processRow hlen cols) st).projectIssues.map
          (fun p => p.name)).Nodup))) := by
  induction rows with
  | nil => intro st; simp [wellRows]
  | cons r rows ih =>
    intro st
    rw [List.foldl_cons, wellRows_cons]
    by_cases hw : r.length = hlen
    · constructor
      · rw [(ih _).1, processRow_projectIssues, if_pos hw, names_upsert_toFinset,
          if_pos hw, List.map_cons, List.toFinset_cons]
        ext a
        simp

      · intro hnd
        refine (ih _).2 ?_
        rw [processRow_projectIssues, if_pos hw]
        exact names_upsert_nodup _ _ _ hnd
    · constructor
      · rw [(ih _).1, processRow_projectIssues, if_neg hw, if_neg hw]
      · intro hnd
        refine (ih _).2 ?_
        rwa [processRow_projectIssues, if_neg hw]

theorem projectIssues_length (hlen : Nat) (cols : Cols) (rows : List (List String)) :
    (rows.foldl (processRow hlen cols) initState).projectIssues.length =
      ((wellRows hlen rows).map
        (fun r => r.getD cols.projectNameCol "")).toFinset.card := by
  have h := foldl_projectNames hlen cols rows initState
  have hnodup := h.2 (by simp [initState])
  have hset := h.1
  rw [show ((initState.projectIssues).map (fun p => p.name)).toFinset =
      (∅ : Finset String) from rfl, Finset.empty_union] at hset
  calc (rows.foldl (processRow hlen cols) initState).projectIssues.length
      = ((rows.foldl (processRow hlen cols) initState).projectIssues.map
          (fun p => p.name)).length := (List.length_map _ _).symm
    _ = ((rows.foldl (processRow hlen cols) initState).projectIssues.map
          (fun p => p.name)).toFinset.card :=
        (List.toFinset_card_of_nodup hnodup).symm
    _ = ((wellRows hlen rows).map
          (fun r => r.getD cols.projectNameCol "")).toFinset.card := by rw [hset]

/-- C1: for every CSV whose header contains the required columns, the
finalized `top5RiskiestProjects` list has length
`min 5 (number of distinct project names among well-formed rows)` and for
every adjacent pair `(a, b)` either `a.criticalIssueCount >
b.criticalIssueCount`, or the critical counts are equal and
`a.highIssueCount ≥ b.highIssueCount`. -/
theorem top5_correct (header : List String) (rows : List (List String))
    (cols : Cols) (hc : resolveCols header = .ok cols) :
    ∃ d, processCSV header rows = .ok d ∧
      d.top5RiskiestProjects.length =
        min 5 ((wellRows header.length rows).map
          (fun r => r.getD cols.projectNameCol "")).toFinset.card ∧
      List.Chain' (fun a b => a.criticalIssueCount > b.criticalIssueCount ∨
        (a.criticalIssueCount = b.criticalIssueCount ∧
          a.highIssueCount ≥ b.highIssueCount)) d.top5RiskiestProjects := by
  refine ⟨_, by rw [processCSV, hc], ?_, ?_⟩
  · rw [finalizeProjects_length, projectIssues_length]
  · exact finalizeProjects_chain _

/-- Witness for C1 at a concrete input: the resolved columns of the
standard header, a three-row CSV (two projects). -/
theorem top5_correct_witness :
    ∃ d, processCSV
        ["ISSUE_SEVERITY", "PROJECT_NAME", "PROJECT_ENVIRONMENTS", "COMPUTED_FIXABILITY"]
        [["critical", "proj1", "env1", "fixable"],
         ["high", "proj1", "env1", ""],
         ["critical", "proj2", "env2", "fixable"]] = .ok d ∧
      d.top5RiskiestProjects.length =
        min 5 ((wellRows (["ISSUE_SEVERITY", "PROJECT_NAME", "PROJECT_ENVIRONMENTS",
            "COMPUTED_FIXABILITY"] : List String).length
          [["critical", "proj1", "env1", "fixable"],
           ["high", "proj1", "env1", ""],
           ["critical", "proj2", "env2", "fixable"]]).map
          (fun r => r.getD 1 "")).toFinset.card ∧
      List.Chain' (fun a b => a.criticalIssueCount > b.criticalIssueCount ∨
        (a.criticalIssueCount = b.criticalIssueCount ∧
          a.highIssueCount ≥ b.highIssueCount)) d.top5RiskiestProjects :=
  top5_correct _ _ ⟨0, 3, some 2, 1⟩ (by decide)

/-! ## Witnesses at concrete inputs for the aggregator claims -/

/-- Witness for C2 at a concrete input: the end-to-end example CSV has two
fixable critical rows. -/
theorem fixableCriticalIssues_correct_witness :
    ∃ d, processCSV
        ["ISSUE_SEVERITY", "PROJECT_NAME", "PROJECT_ENVIRONMENTS", "COMPUTED_FIXABILITY"]
        [["critical", "proj1", "env1", "fixable"],
         ["high", "proj1", "env1", ""],
         ["critical", "proj2", "env2", "fixable"]] = .ok d ∧
      d.fixableCriticalIssues =
        ((wellRows (["ISSUE_SEVERITY", "PROJECT_NAME", "PROJECT_ENVIRONMENTS",
            "COMPUTED_FIXABILITY"] : List String).length
          [["critical", "proj1", "env1", "fixable"],
           ["high", "proj1", "env1", ""],
           ["critical", "proj2", "env2", "fixable"]]).filter
          (fun r => decide (r.getD 0 "" = "critical") &&
                    decide (r.getD 3 "" = "fixable"))).length :=
  fixableCriticalIssues_correct _ _ ⟨0, 3, some 2, 1⟩ (by decide)

/-- Witness for C3 at a concrete input: all three example rows have a
non-empty severity. -/
theorem severitySum_correct_witness :
    ∃ d, processCSV
        ["ISSUE_SEVERITY", "PROJECT_NAME", "PROJECT_ENVIRONMENTS", "COMPUTED_FIXABILITY"]
        [["critical", "proj1", "env1", "fixable"],
         ["", "proj1", "env1", ""],
         ["critical", "proj2", "env2", "fixable"]] = .ok d ∧
      mapSum d.issuesBySeverity =
        ((wellRows (["ISSUE_SEVERITY", "PROJECT_NAME", "PROJECT_ENVIRONMENTS",
            "COMPUTED_FIXABILITY"] : List String).length
          [["critical", "proj1", "env1", "fixable"],
           ["", "proj1", "env1", ""],
           ["critical", "proj2", "env2", "fixable"]]).filter
          (fun r => decide (r.getD 0 "" ≠ ""))).length :=
  severitySum_correct _ _ ⟨0, 3, some 2, 1⟩ (by decide)

/-- Witness for C4 at a concrete input: inserting the one-field row
`["x"]` between two well-formed rows changes nothing. -/
theorem shortRow_skipped_witness :
    processCSV
        ["ISSUE_SEVERITY", "PROJECT_NAME", "PROJECT_ENVIRONMENTS", "COMPUTED_FIXABILITY"]
        ([["critical", "proj1", "env1", "fixable"]] ++ ["x"] ::
          [["high", "proj2", "env2", ""]]) =
      processCSV
        ["ISSUE_SEVERITY", "PROJECT_NAME", "PROJECT_ENVIRONMENTS", "COMPUTED_FIXABILITY"]
        ([["critical", "proj1", "env1", "fixable"]] ++ [["high", "proj2", "env2", ""]]) :=
  shortRow_skipped _ [["critical", "proj1", "env1", "fixable"]]
    [["high", "proj2", "env2", ""]] ["x"] (by decide)

/-- Witness for C6 at a concrete input: a header without `ISSUE_SEVERITY`
is rejected. -/
theorem missingRequiredColumn_fails_witness :
    processCSV ["PROJECT_NAME", "COMPUTED_FIXABILITY"] [["p", "fixable"]] =
      .error missingColumnsMsg :=
  missingRequiredColumn_fails ["PROJECT_NAME", "COMPUTED_FIXABILITY"]
    (Or.inl (by decide)) [["p", "fixable"]]

end NIS2Dash
